import Mathlib

/-!
Verification development for the crypto-vision dual-ledger trading engine.

Shallow embedding of:
* the Binance price oracle service (server/services/binance.service.js),
* the on-chain ledger contract CryptoTradingContract (Solidity ^0.8, checked
  arithmetic: an overflowing operation reverts the whole call),
* the transaction orchestrator / trading controllers (two generations:
  the blockchain-first controller in server/controllers/trading.controller.js,
  called V1 below, and the Binance-era controller, called V2 below),
* the journal-derived balance aggregation.

Numbers handled by JavaScript are modelled as exact rationals (ℚ); the
contract's uint256 values are modelled as ℕ with explicit 2^256 overflow
checks reproducing Solidity 0.8 checked arithmetic.  JavaScript's
String.prototype.toUpperCase is modelled on its ASCII fragment (jsUpper),
which is total on the symbol alphabet the service uses.
-/

/-! ## Generic association-list maps (JS objects / Solidity mappings) -/

def lookupA {α β : Type} [DecidableEq α] : List (α × β) → α → Option β
  | [], _ => none
  | (k, v) :: rest, k' => if k' = k then some v else lookupA rest k'

def lookupD {α β : Type} [DecidableEq α] (m : List (α × β)) (k : α) (d : β) : β :=
  (lookupA m k).getD d

/-! ## ASCII uppercase (String.prototype.toUpperCase on the ASCII range) -/

def jsUpper (s : String) : String := ⟨s.data.map Char.toUpper⟩

theorem char_toNat_ofNat_valid (n : Nat) (h : n.isValidChar) : (Char.ofNat n).toNat = n := by
  simp only [Char.ofNat, dif_pos h]
  rfl

theorem char_toUpper_idem (c : Char) : c.toUpper.toUpper = c.toUpper := by
  unfold Char.toUpper
  by_cases h : c.toNat ≥ 97 ∧ c.toNat ≤ 122
  · have hv : (c.toNat - 32).isValidChar := Or.inl (by omega)
    have ht : (Char.ofNat (c.toNat - 32)).toNat = c.toNat - 32 :=
      char_toNat_ofNat_valid _ hv
    rw [if_pos h, if_neg (by rw [ht]; omega)]
  · rw [if_neg h, if_neg h]

theorem jsUpper_idem (s : String) : jsUpper (jsUpper s) = jsUpper s := by
  unfold jsUpper
  congr 1
  rw [List.map_map]
  exact List.map_congr_left (fun c _ => char_toUpper_idem c)

/-! ## Decimal rounding (Number.prototype.toFixed, read back with parseFloat) -/

def toFixed8 (x : ℚ) : ℚ := (round (x * 10 ^ 8) : ℤ) / 10 ^ 8

def toFixed2 (x : ℚ) : ℚ := (round (x * 100) : ℤ) / 100

/-! ## Price oracle (binance.service.js)

`getPrice` takes the upstream ticker endpoint as a function argument
(`upstream pair` is the result of the GET /api/v3/ticker/price call) and
threads the price cache explicitly.  The JS method never rejects: every
path of the translated definition produces `Except.ok`. -/

def supportedPairs : List (String × String) :=
  [("BTC", "BTCUSDT"), ("ETH", "ETHUSDT"), ("ADA", "ADAUSDT"), ("DOT", "DOTUSDT"),
   ("BNB", "BNBUSDT"), ("XRP", "XRPUSDT"), ("SOL", "SOLUSDT"), ("MATIC", "MATICUSDT")]

def getSupportedCryptos : List String := supportedPairs.map Prod.fst

def isSupported (symbol : String) : Bool := (lookupA supportedPairs (jsUpper symbol)).isSome

def fallbackPriceTable : List (String × ℚ) :=
  [("BTC", 43250), ("ETH", 2650), ("ADA", 0.385), ("DOT", 5.45),
   ("BNB", 310.5), ("XRP", 0.52), ("SOL", 98.75), ("MATIC", 0.85)]

def getFallbackPrice (symbol : String) : ℚ :=
  (lookupA fallbackPriceTable (jsUpper symbol)).getD 1

structure CacheEntry where
  price : ℚ
  timestamp : Nat
deriving DecidableEq, Repr

abbrev PriceCache := List (String × CacheEntry)

def getPrice (upstream : String → Except String ℚ) (now : Nat) (cache : PriceCache)
    (symbol : String) : Except String ℚ × PriceCache :=
  match lookupA supportedPairs (jsUpper symbol) with
  | none =>
    -- the `symbol is not supported` throw is caught by the catch block below
    match lookupA cache (jsUpper symbol) with
    | some e => (.ok e.price, cache)
    | none => (.ok (getFallbackPrice symbol), cache)
  | some binancePair =>
    match upstream binancePair with
    | .ok raw =>
      let price := toFixed8 raw
      (.ok price, (jsUpper symbol, ⟨price, now⟩) :: cache)
    | .error _ =>
      -- fetch failure: cached value if present, else static fallback
      match lookupA cache (jsUpper symbol) with
      | some e => (.ok e.price, cache)
      | none => (.ok (getFallbackPrice symbol), cache)

def getCachedPrice (cache : PriceCache) (symbol : String) : Option ℚ :=
  (lookupA cache (jsUpper symbol)).map CacheEntry.price

structure Stats24 where
  symbol : String
  price : ℚ
  change : ℚ
  changePercent : ℚ
  volume : ℚ
  high : ℚ
  low : ℚ
deriving DecidableEq, Repr

structure RawStats where
  lastPrice : ℚ
  priceChange : ℚ
  priceChangePercent : ℚ
  volume : ℚ
  highPrice : ℚ
  lowPrice : ℚ
deriving DecidableEq, Repr

def stats24Fallback (upstream : String → Except String ℚ) (now : Nat) (cache : PriceCache)
    (symbol : String) : Stats24 × PriceCache :=
  let r := getPrice upstream now cache symbol
  let currentPrice := r.1.toOption.getD 0
  (⟨jsUpper symbol, currentPrice, 0, 0, 0, currentPrice, currentPrice⟩, r.2)

def get24hrStats (statsFetch : String → Except String RawStats)
    (upstream : String → Except String ℚ) (now : Nat) (cache : PriceCache)
    (symbol : String) : Stats24 × PriceCache :=
  match lookupA supportedPairs (jsUpper symbol) with
  | none => stats24Fallback upstream now cache symbol
  | some binancePair =>
    match statsFetch binancePair with
    | .ok r =>
      (⟨jsUpper symbol, toFixed8 r.lastPrice, toFixed8 r.priceChange,
        toFixed2 r.priceChangePercent, toFixed2 r.volume,
        toFixed8 r.highPrice, toFixed8 r.lowPrice⟩, cache)
    | .error _ => stats24Fallback upstream now cache symbol

def streamTick (now : Nat) (cache : PriceCache) (eventType tickerSymbol : String)
    (lastPrice : ℚ) : PriceCache :=
  if eventType = "24hrTicker" then
    match supportedPairs.find? (fun kv => kv.2 = tickerSymbol) with
    | some kv => (kv.1, ⟨toFixed8 lastPrice, now⟩) :: cache
    | none => cache
  else cache

def getCryptoName (symbol : String) : String :=
  (lookupA
    [("BTC", "Bitcoin"), ("ETH", "Ethereum"), ("ADA", "Cardano"), ("DOT", "Polkadot"),
     ("BNB", "Binance Coin"), ("XRP", "XRP"), ("SOL", "Solana"), ("MATIC", "Polygon")]
    symbol).getD symbol

/-! ## Ledger contract (CryptoTradingContract, part_003, Solidity ^0.8)

Accounts are modelled as strings, `msg.value` and all quantities as ℕ
(uint256 values below `2 ^ 256`).  Solidity 0.8 checked arithmetic is
reproduced: an addition or multiplication whose result would reach
`2 ^ 256` reverts the whole call (error `overflow`).  A revert returns
`Except.error`, leaving the pre-call state untouched, which models the
EVM's atomic rollback. -/

def UINT256_LIMIT : Nat := 2 ^ 256

structure CryptoCurrency where
  symbol : String
  price : Nat
  isActive : Bool
deriving DecidableEq, Repr

def cryptoDefault : CryptoCurrency := ⟨"", 0, false⟩

structure ChainTransaction where
  id : Nat
  user : String
  cryptoSymbol : String
  amount : Nat
  price : Nat
  transactionType : String
  timestamp : Nat
  completed : Bool
deriving DecidableEq, Repr

def chainTxDefault : ChainTransaction := ⟨0, "", "", 0, 0, "", 0, false⟩

structure ContractState where
  owner : String
  transactionCount : Nat
  cryptocurrencies : List (String × CryptoCurrency)
  userBalances : List ((String × String) × Nat)
  transactions : List (Nat × ChainTransaction)
  userTransactions : List (String × List Nat)
  supportedCryptos : List String
  contractBalance : Nat
deriving DecidableEq, Repr

inductive ContractErr where
  | onlyOwner
  | alreadyExists
  | invalidPrice
  | notRegistered
  | invalidAmount
  | insufficientPayment
  | insufficientBalance
  | insufficientReserve
  | mustSendEth
  | overflow
deriving DecidableEq, Repr

def addCryptocurrency (st : ContractState) (sender symbol : String) (price : Nat) :
    Except ContractErr ContractState :=
  if sender ≠ st.owner then .error .onlyOwner
  else if (lookupD st.cryptocurrencies symbol cryptoDefault).isActive then .error .alreadyExists
  else if price = 0 then .error .invalidPrice
  else .ok { st with
    cryptocurrencies := (symbol, ⟨symbol, price, true⟩) :: st.cryptocurrencies,
    supportedCryptos := st.supportedCryptos ++ [symbol] }

def updateCryptoPrice (st : ContractState) (sender symbol : String) (newPrice : Nat) :
    Except ContractErr ContractState :=
  if sender ≠ st.owner then .error .onlyOwner
  else if ¬ (lookupD st.cryptocurrencies symbol cryptoDefault).isActive then .error .notRegistered
  else if newPrice = 0 then .error .invalidPrice
  else .ok { st with
    cryptocurrencies :=
      (symbol, { lookupD st.cryptocurrencies symbol cryptoDefault with price := newPrice })
        :: st.cryptocurrencies }

def deployContract (deployer : String) : Except ContractErr ContractState :=
  let st0 : ContractState := ⟨deployer, 0, [], [], [], [], [], 0⟩
  addCryptocurrency st0 deployer "BTC" (30000 * 10 ^ 18) >>= fun s1 =>
  addCryptocurrency s1 deployer "ETH" (1 * 10 ^ 18) >>= fun s2 =>
  addCryptocurrency s2 deployer "ADA" (5 * 10 ^ 15) >>= fun s3 =>
  addCryptocurrency s3 deployer "DOT" (10 * 10 ^ 15)

def buyCryptocurrency (st : ContractState) (sender : String) (value : Nat)
    (symbol : String) (amount : Nat) (timestamp : Nat) :
    Except ContractErr (ContractState × Nat) :=
  if ¬ (lookupD st.cryptocurrencies symbol cryptoDefault).isActive then .error .notRegistered
  else if amount = 0 then .error .invalidAmount
  else
    let price := (lookupD st.cryptocurrencies symbol cryptoDefault).price
    if UINT256_LIMIT ≤ amount * price then .error .overflow
    else
      let totalCost := amount * price / 10 ^ 18
      if value < totalCost then .error .insufficientPayment
      else if UINT256_LIMIT ≤ st.transactionCount + 1 then .error .overflow
      else
        let newCount := st.transactionCount + 1
        let bal := lookupD st.userBalances (sender, symbol) 0
        if UINT256_LIMIT ≤ bal + amount then .error .overflow
        else
          .ok ({ st with
            transactionCount := newCount,
            transactions :=
              (newCount, ⟨newCount, sender, symbol, amount, price, "buy", timestamp, true⟩)
                :: st.transactions,
            userTransactions :=
              (sender, lookupD st.userTransactions sender [] ++ [newCount])
                :: st.userTransactions,
            userBalances := ((sender, symbol), bal + amount) :: st.userBalances,
            contractBalance := st.contractBalance + totalCost },
            value - totalCost)

def sellCryptocurrency (st : ContractState) (sender : String)
    (symbol : String) (amount : Nat) (timestamp : Nat) :
    Except ContractErr (ContractState × Nat) :=
  if ¬ (lookupD st.cryptocurrencies symbol cryptoDefault).isActive then .error .notRegistered
  else if amount = 0 then .error .invalidAmount
  else if lookupD st.userBalances (sender, symbol) 0 < amount then .error .insufficientBalance
  else
    let price := (lookupD st.cryptocurrencies symbol cryptoDefault).price
    if UINT256_LIMIT ≤ amount * price then .error .overflow
    else
      let saleValue := amount * price / 10 ^ 18
      if st.contractBalance < saleValue then .error .insufficientReserve
      else if UINT256_LIMIT ≤ st.transactionCount + 1 then .error .overflow
      else
        let newCount := st.transactionCount + 1
        let bal := lookupD st.userBalances (sender, symbol) 0
        .ok ({ st with
          transactionCount := newCount,
          transactions :=
            (newCount, ⟨newCount, sender, symbol, amount, price, "sell", timestamp, true⟩)
              :: st.transactions,
          userTransactions :=
            (sender, lookupD st.userTransactions sender [] ++ [newCount])
              :: st.userTransactions,
          userBalances := ((sender, symbol), bal - amount) :: st.userBalances,
          contractBalance := st.contractBalance - saleValue },
          saleValue)

def getUserBalance (st : ContractState) (user symbol : String) : Nat :=
  lookupD st.userBalances (user, symbol) 0

def getUserTransactions (st : ContractState) (user : String) : List Nat :=
  lookupD st.userTransactions user []

def getTransaction (st : ContractState) (txId : Nat) : ChainTransaction :=
  lookupD st.transactions txId chainTxDefault

def getCryptoPrice (st : ContractState) (symbol : String) : Except ContractErr Nat :=
  if (lookupD st.cryptocurrencies symbol cryptoDefault).isActive then
    .ok (lookupD st.cryptocurrencies symbol cryptoDefault).price
  else .error .notRegistered

def getSupportedCryptosChain (st : ContractState) : List String := st.supportedCryptos

def getContractBalance (st : ContractState) : Nat := st.contractBalance

def depositETH (st : ContractState) (sender : String) (value : Nat) :
    Except ContractErr ContractState :=
  if sender ≠ st.owner then .error .onlyOwner
  else if value = 0 then .error .mustSendEth
  else .ok { st with contractBalance := st.contractBalance + value }

def withdrawETH (st : ContractState) (sender : String) (amount : Nat) :
    Except ContractErr (ContractState × Nat) :=
  if sender ≠ st.owner then .error .onlyOwner
  else if st.contractBalance < amount then .error .insufficientReserve
  else .ok ({ st with contractBalance := st.contractBalance - amount }, amount)

/-! ## Off-chain journal (MySQL transactions table) and derived balances -/

structure JournalEntry where
  userId : Nat
  cryptoSymbol : String
  amount : ℚ
  price : ℚ
  txType : String
  txHash : Option String
deriving DecidableEq, Repr

def boughtSum (journal : List JournalEntry) (userId : Nat) (symbol : String) : ℚ :=
  ((journal.filter fun e => e.userId = userId ∧ e.cryptoSymbol = symbol).map
    fun e => if e.txType = "buy" then e.amount else 0).sum

def soldSum (journal : List JournalEntry) (userId : Nat) (symbol : String) : ℚ :=
  ((journal.filter fun e => e.userId = userId ∧ e.cryptoSymbol = symbol).map
    fun e => if e.txType = "sell" then e.amount else 0).sum

def journalBalance (journal : List JournalEntry) (userId : Nat) (symbol : String) : ℚ :=
  boughtSum journal userId symbol - soldSum journal userId symbol

/-! ## Transaction orchestrator (Binance-era trading controller, V2)

`chainBuy` / `chainSell` stand for the blockchain.js wrappers, which never
reject: a revert (or transport failure) surfaces as `success = false` with
the error message.  The result of an order is the HTTP outcome, the new
journal, and the list of symbols actually submitted to the contract. -/

structure ChainCallResult where
  success : Bool
  transactionHash : Option String
  errMsg : Option String
deriving DecidableEq, Repr

inductive OrderOutcome where
  | badRequest (msg : String)
  | accepted (txRef : Option String)
deriving DecidableEq, Repr

def jsTruthyHash (h : Option String) : Option String :=
  match h with
  | some s => if s = "" then none else some s
  | none => none

def executeBuy (chainBuy : String → ChainCallResult)
    (upstream : String → Except String ℚ) (now : Nat) (cache : PriceCache)
    (journal : List JournalEntry) (userId : Nat)
    (cryptoSymbol : String) (amount ethValue : ℚ) :
    OrderOutcome × List JournalEntry × List String :=
  if cryptoSymbol = "" ∨ amount = 0 ∨ ethValue = 0 then
    (.badRequest "Please provide cryptoSymbol, amount, and ethValue", journal, [])
  else if amount ≤ 0 ∨ ethValue ≤ 0 then
    (.badRequest "Amount and ethValue must be greater than 0", journal, [])
  else if ¬ isSupported cryptoSymbol then
    (.badRequest (cryptoSymbol ++ " is not supported"), journal, [])
  else
    let currentPrice := (getPrice upstream now cache (jsUpper cryptoSymbol)).1.toOption.getD 0
    if cryptoSymbol ≠ "ETH" ∧ cryptoSymbol ≠ "BTC" then
      let r := chainBuy (jsUpper cryptoSymbol)
      if r.success = false then
        (.badRequest ((r.errMsg).getD "Transaction has been reverted by the EVM"),
          journal, [jsUpper cryptoSymbol])
      else
        let ref := jsTruthyHash r.transactionHash
        (.accepted ref,
          journal ++ [⟨userId, jsUpper cryptoSymbol, amount, currentPrice, "buy", ref⟩],
          [jsUpper cryptoSymbol])
    else
      (.accepted none,
        journal ++ [⟨userId, jsUpper cryptoSymbol, amount, currentPrice, "buy", none⟩],
        [])

def executeSell (chainSell : String → ChainCallResult)
    (upstream : String → Except String ℚ) (now : Nat) (cache : PriceCache)
    (journal : List JournalEntry) (userId : Nat)
    (cryptoSymbol : String) (amount : ℚ) :
    OrderOutcome × List JournalEntry × List String :=
  if cryptoSymbol = "" ∨ amount = 0 ∨ amount ≤ 0 then
    (.badRequest "Please provide valid cryptoSymbol and amount", journal, [])
  else if ¬ isSupported cryptoSymbol then
    (.badRequest (cryptoSymbol ++ " is not supported"), journal, [])
  else
    let balance := journalBalance journal userId (jsUpper cryptoSymbol)
    if balance < amount then
      (.badRequest "Insufficient cryptocurrency balance", journal, [])
    else
      let currentPrice := (getPrice upstream now cache (jsUpper cryptoSymbol)).1.toOption.getD 0
      if cryptoSymbol ≠ "ETH" ∧ cryptoSymbol ≠ "BTC" then
        let r := chainSell (jsUpper cryptoSymbol)
        if r.success = false then
          (.badRequest ((r.errMsg).getD "EVM revert"), journal, [jsUpper cryptoSymbol])
        else
          let ref := jsTruthyHash r.transactionHash
          (.accepted ref,
            journal ++ [⟨userId, jsUpper cryptoSymbol, amount, currentPrice, "sell", ref⟩],
            [jsUpper cryptoSymbol])
      else
        (.accepted none,
          journal ++ [⟨userId, jsUpper cryptoSymbol, amount, currentPrice, "sell", none⟩],
          [])

/-! ## Balance queries

V1 (server/controllers/trading.controller.js, getUserBalances): for every
symbol the contract supports, query the on-chain balance (the blockchain.js
wrapper turns a failed query into "0"); serve it verbatim when positive,
otherwise fall back to the journal-derived aggregate.

V2 (Binance-era getUserBalances): the journal-derived aggregate is the only
source; the chain is never consulted. -/

structure BalanceRow where
  symbol : String
  balance : ℚ
  price : ℚ
  value : ℚ
  source : String
deriving DecidableEq, Repr

def effectiveBalanceV1 (chainQuery : String → Except String ℚ)
    (journal : List JournalEntry) (userId : Nat) (symbol : String) : ℚ :=
  let blockchainBalance := (chainQuery symbol).toOption.getD 0
  if blockchainBalance > 0 then blockchainBalance
  else toFixed8 (journalBalance journal userId symbol)

def getUserBalancesV1 (chainQuery : String → Except String ℚ)
    (contractPrice : String → ℚ) (journal : List JournalEntry) (userId : Nat)
    (symbols : List String) : List BalanceRow :=
  symbols.map fun c =>
    let blockchainBalance := (chainQuery c).toOption.getD 0
    let databaseBalance := journalBalance journal userId c
    let finalBalance :=
      if blockchainBalance > 0 then blockchainBalance else toFixed8 databaseBalance
    ⟨c, finalBalance, contractPrice c, toFixed8 (finalBalance * contractPrice c),
      if blockchainBalance > 0 then "blockchain" else "database"⟩

structure Holding where
  symbol : String
  name : String
  balance : ℚ
  price : ℚ
  value : ℚ
  percentage : ℚ
deriving DecidableEq, Repr

def getUserBalancesV2 (prices : String → ℚ) (journal : List JournalEntry) (userId : Nat) :
    List Holding × ℚ :=
  let holdings := getSupportedCryptos.filterMap fun c =>
    let balance := journalBalance journal userId c
    if balance > 0 then
      let price := prices c
      let value := toFixed2 (balance * price)
      some (⟨c, getCryptoName c, balance, price, value, 0⟩ : Holding)
    else none
  let totalValue := (holdings.map Holding.value).sum
  let withPct := holdings.map fun h =>
    { h with percentage := if totalValue > 0 then toFixed2 (h.value / totalValue * 100) else 0 }
  (withPct, totalValue)

/-! ## Decidable equality for Except (used by concrete evaluations) -/

deriving instance DecidableEq for Except

/-! ## Concrete states used by witnesses -/

def ethOnlyState : ContractState :=
  ⟨"owner", 0, [("ETH", ⟨"ETH", 10 ^ 18, true⟩)], [], [], [], ["ETH"], 0⟩

def sellWitnessState : ContractState :=
  ⟨"owner", 0, [("ETH", ⟨"ETH", 10 ^ 18, true⟩)], [(("alice", "ETH"), 5)], [], [], ["ETH"], 10⟩

/-! ## C1: contract buy -/

/-- C1 counterexample: in the freshly deployed contract, ETH is registered at
price 10^18 wei and the call `buyCryptocurrency("ETH", 12·10^58)` with supplied
value 2^256−1 ≥ cost = 12·10^58 reverts with a checked-arithmetic overflow
(the Solidity 0.8 product `_amount * price` = 12·10^76 exceeds 2^256−1)
instead of succeeding as the claim requires for every `value ≥ cost`. -/
theorem C1_counterexample :
    ((deployContract "deployer").bind fun st =>
        buyCryptocurrency st "alice" (2 ^ 256 - 1) "ETH" (12 * 10 ^ 58) 0)
      = .error .overflow ∧
    ((deployContract "deployer").map fun st => getCryptoPrice st "ETH") = .ok (.ok (10 ^ 18)) ∧
    12 * 10 ^ 58 * 10 ^ 18 / 10 ^ 18 ≤ 2 ^ 256 - 1 ∧ 0 < 12 * 10 ^ 58 := by decide

/-- C1 (amended): for a registered symbol and amount > 0, provided no uint256
overflow occurs (amount × price < 2^256, new counter and new balance < 2^256),
buy fails InsufficientPayment when value < cost = amount × price / 10^18, and
otherwise records one new completed transaction with id = counter + 1, credits
the caller's balance by exactly amount and refunds exactly value − cost (zero
when value = cost).  Unregistered symbols fail NotRegistered, amount = 0 fails
InvalidAmount.  Failing branches return `Except.error` without a successor
state, which models the EVM revert (no state change). -/
theorem C1_buy_amended (st : ContractState) (sender symbol : String) (v amount ts : Nat)
    (hact : (lookupD st.cryptocurrencies symbol cryptoDefault).isActive = true)
    (hamt : 0 < amount)
    (hmul : amount * (lookupD st.cryptocurrencies symbol cryptoDefault).price < UINT256_LIMIT)
    (hcnt : st.transactionCount + 1 < UINT256_LIMIT)
    (hbal : lookupD st.userBalances (sender, symbol) 0 + amount < UINT256_LIMIT) :
    (v < amount * (lookupD st.cryptocurrencies symbol cryptoDefault).price / 10 ^ 18 →
      buyCryptocurrency st sender v symbol amount ts = .error .insufficientPayment) ∧
    (amount * (lookupD st.cryptocurrencies symbol cryptoDefault).price / 10 ^ 18 ≤ v →
      ∃ st', buyCryptocurrency st sender v symbol amount ts =
          .ok (st', v - amount * (lookupD st.cryptocurrencies symbol cryptoDefault).price / 10 ^ 18) ∧
        st'.transactionCount = st.transactionCount + 1 ∧
        getTransaction st' (st.transactionCount + 1) =
          ⟨st.transactionCount + 1, sender, symbol, amount,
            (lookupD st.cryptocurrencies symbol cryptoDefault).price, "buy", ts, true⟩ ∧
        getUserBalance st' sender symbol = getUserBalance st sender symbol + amount) ∧
    (∀ (sym2 : String) (v2 a2 ts2 : Nat),
      (lookupD st.cryptocurrencies sym2 cryptoDefault).isActive = false →
      buyCryptocurrency st sender v2 sym2 a2 ts2 = .error .notRegistered) ∧
    (∀ (sym2 : String) (v2 ts2 : Nat),
      (lookupD st.cryptocurrencies sym2 cryptoDefault).isActive = true →
      buyCryptocurrency st sender v2 sym2 0 ts2 = .error .invalidAmount) := by
  have h0 : amount ≠ 0 := by omega
  have hm : ¬ UINT256_LIMIT ≤ amount * (lookupD st.cryptocurrencies symbol cryptoDefault).price :=
    not_le.mpr hmul
  have hc : ¬ UINT256_LIMIT ≤ st.transactionCount + 1 := not_le.mpr hcnt
  have hb : ¬ UINT256_LIMIT ≤ lookupD st.userBalances (sender, symbol) 0 + amount :=
    not_le.mpr hbal
  refine ⟨?_, ?_, ?_, ?_⟩
  · intro hv
    simp [buyCryptocurrency, hact, h0, hm, hv]
    intro h
    exact absurd hv (not_lt.mpr h)
  swap
  · intro sym2 v2 a2 ts2 hin
    simp [buyCryptocurrency, hin]
  swap
  · intro sym2 v2 ts2 hin
    simp [buyCryptocurrency, hin]
  · intro hcost
    have hv : ¬ v < amount * (lookupD st.cryptocurrencies symbol cryptoDefault).price / 10 ^ 18 :=
      not_lt.mpr hcost
    have heq : buyCryptocurrency st sender v symbol amount ts = Except.ok ({ st with
        transactionCount := st.transactionCount + 1,
        transactions :=
          (st.transactionCount + 1,
            ⟨st.transactionCount + 1, sender, symbol, amount,
              (lookupD st.cryptocurrencies symbol cryptoDefault).price, "buy", ts, true⟩)
            :: st.transactions,
        userTransactions :=
          (sender, lookupD st.userTransactions sender [] ++ [st.transactionCount + 1])
            :: st.userTransactions,
        userBalances :=
          ((sender, symbol), lookupD st.userBalances (sender, symbol) 0 + amount)
            :: st.userBalances,
        contractBalance := st.contractBalance +
          amount * (lookupD st.cryptocurrencies symbol cryptoDefault).price / 10 ^ 18 },
        v - amount * (lookupD st.cryptocurrencies symbol cryptoDefault).price / 10 ^ 18) := by
      simp [buyCryptocurrency, hact, h0, hm, hv, hc, hb]
      simpa using hcost
    exact ⟨_, heq, by simp, by simp [getTransaction, lookupD, lookupA],
      by simp [getUserBalance, lookupD, lookupA]⟩

/-- C1 witness: in the one-asset state with ETH at price 10^18, buying 2 units
with value 5 succeeds with refund 3 and credits the balance by 2. -/
theorem C1_buy_amended_witness :
    (5 < 2 * 10 ^ 18 / 10 ^ 18 →
      buyCryptocurrency ethOnlyState "alice" 5 "ETH" 2 7 = .error .insufficientPayment) ∧
    (2 * 10 ^ 18 / 10 ^ 18 ≤ 5 → ∃ st',
      buyCryptocurrency ethOnlyState "alice" 5 "ETH" 2 7 = .ok (st', 5 - 2 * 10 ^ 18 / 10 ^ 18) ∧
      st'.transactionCount = 0 + 1 ∧
      getTransaction st' (0 + 1) = ⟨0 + 1, "alice", "ETH", 2, 10 ^ 18, "buy", 7, true⟩ ∧
      getUserBalance st' "alice" "ETH" = getUserBalance ethOnlyState "alice" "ETH" + 2) ∧
    (∀ (sym2 : String) (v2 a2 ts2 : Nat),
      (lookupD ethOnlyState.cryptocurrencies sym2 cryptoDefault).isActive = false →
      buyCryptocurrency ethOnlyState "alice" v2 sym2 a2 ts2 = .error .notRegistered) ∧
    (∀ (sym2 : String) (v2 ts2 : Nat),
      (lookupD ethOnlyState.cryptocurrencies sym2 cryptoDefault).isActive = true →
      buyCryptocurrency ethOnlyState "alice" v2 sym2 0 ts2 = .error .invalidAmount) :=
  C1_buy_amended ethOnlyState "alice" "ETH" 5 2 7 (by decide) (by decide) (by decide)
    (by decide) (by decide)

/-! ## C2: contract sell -/

/-- C2 counterexample: starting from deployment, two buys of 6·10^58 ETH units
(each paid exactly) leave alice with balance 12·10^58 and the contract with an
ETH reserve of 12·10^58 wei, at least the claimed proceeds 12·10^58; the claim
then requires the sell of 12·10^58 units to succeed, but the call reverts with
a checked-arithmetic overflow (amount × price = 12·10^76 ≥ 2^256). -/
theorem C2_counterexample :
    (((deployContract "deployer").bind fun s0 =>
        ((buyCryptocurrency s0 "alice" (6 * 10 ^ 58) "ETH" (6 * 10 ^ 58) 0).map Prod.fst).bind
          fun s1 =>
        (buyCryptocurrency s1 "alice" (6 * 10 ^ 58) "ETH" (6 * 10 ^ 58) 1).map Prod.fst).map
      fun s2 => (getUserBalance s2 "alice" "ETH", getContractBalance s2,
        sellCryptocurrency s2 "alice" "ETH" (12 * 10 ^ 58) 2))
      = .ok (12 * 10 ^ 58, 12 * 10 ^ 58, .error .overflow) ∧
    12 * 10 ^ 58 * 10 ^ 18 / 10 ^ 18 ≤ 12 * 10 ^ 58 := by decide

/-- C2 (amended): for a registered symbol and amount > 0, provided no uint256
overflow occurs (amount × price < 2^256 and new counter < 2^256), sell fails
InsufficientBalance when the caller's on-chain balance < amount, then fails
InsufficientReserve when the contract's ETH reserve < proceeds =
amount × price / 10^18, and otherwise debits the balance by exactly amount,
transfers the proceeds, and records one completed transaction with id =
counter + 1.  Failing branches return `Except.error` with no successor state,
modelling the atomic EVM revert. -/
theorem C2_sell_amended (st : ContractState) (sender symbol : String) (amount ts : Nat)
    (hact : (lookupD st.cryptocurrencies symbol cryptoDefault).isActive = true)
    (hamt : 0 < amount)
    (hmul : amount * (lookupD st.cryptocurrencies symbol cryptoDefault).price < UINT256_LIMIT)
    (hcnt : st.transactionCount + 1 < UINT256_LIMIT) :
    (lookupD st.userBalances (sender, symbol) 0 < amount →
      sellCryptocurrency st sender symbol amount ts = .error .insufficientBalance) ∧
    (amount ≤ lookupD st.userBalances (sender, symbol) 0 →
      st.contractBalance < amount * (lookupD st.cryptocurrencies symbol cryptoDefault).price / 10 ^ 18 →
      sellCryptocurrency st sender symbol amount ts = .error .insufficientReserve) ∧
    (amount ≤ lookupD st.userBalances (sender, symbol) 0 →
      amount * (lookupD st.cryptocurrencies symbol cryptoDefault).price / 10 ^ 18 ≤ st.contractBalance →
      ∃ st', sellCryptocurrency st sender symbol amount ts =
          .ok (st', amount * (lookupD st.cryptocurrencies symbol cryptoDefault).price / 10 ^ 18) ∧
        st'.transactionCount = st.transactionCount + 1 ∧
        getTransaction st' (st.transactionCount + 1) =
          ⟨st.transactionCount + 1, sender, symbol, amount,
            (lookupD st.cryptocurrencies symbol cryptoDefault).price, "sell", ts, true⟩ ∧
        getUserBalance st' sender symbol = getUserBalance st sender symbol - amount ∧
        st'.contractBalance = st.contractBalance -
          amount * (lookupD st.cryptocurrencies symbol cryptoDefault).price / 10 ^ 18) := by
  have h0 : amount ≠ 0 := by omega
  have hm : ¬ UINT256_LIMIT ≤ amount * (lookupD st.cryptocurrencies symbol cryptoDefault).price :=
    not_le.mpr hmul
  have hc : ¬ UINT256_LIMIT ≤ st.transactionCount + 1 := not_le.mpr hcnt
  refine ⟨?_, ?_, ?_⟩
  · intro hlt
    simp [sellCryptocurrency, hact, h0, hlt]
  · intro hge hres
    have hnlt : ¬ lookupD st.userBalances (sender, symbol) 0 < amount := not_lt.mpr hge
    simp [sellCryptocurrency, hact, h0, hnlt, hm, hres]
    intro h
    exact absurd hres (not_lt.mpr h)
  · intro hge hres
    have hnlt : ¬ lookupD st.userBalances (sender, symbol) 0 < amount := not_lt.mpr hge
    have hnres : ¬ st.contractBalance <
        amount * (lookupD st.cryptocurrencies symbol cryptoDefault).price / 10 ^ 18 :=
      not_lt.mpr hres
    have heq : sellCryptocurrency st sender symbol amount ts = Except.ok ({ st with
        transactionCount := st.transactionCount + 1,
        transactions :=
          (st.transactionCount + 1,
            ⟨st.transactionCount + 1, sender, symbol, amount,
              (lookupD st.cryptocurrencies symbol cryptoDefault).price, "sell", ts, true⟩)
            :: st.transactions,
        userTransactions :=
          (sender, lookupD st.userTransactions sender [] ++ [st.transactionCount + 1])
            :: st.userTransactions,
        userBalances :=
          ((sender, symbol), lookupD st.userBalances (sender, symbol) 0 - amount)
            :: st.userBalances,
        contractBalance := st.contractBalance -
          amount * (lookupD st.cryptocurrencies symbol cryptoDefault).price / 10 ^ 18 },
        amount * (lookupD st.cryptocurrencies symbol cryptoDefault).price / 10 ^ 18) := by
      simp [sellCryptocurrency, hact, h0, hnlt, hm, hnres, hc]
      simpa using hres
    exact ⟨_, heq, by simp, by simp [getTransaction, lookupD, lookupA],
      by simp [getUserBalance, lookupD, lookupA], by simp⟩

/-- C2 witness: with balance 5 ETH units and reserve 10 wei, selling 2 units at
price 10^18 succeeds, debits the balance to 3 and pays out 2 wei. -/
theorem C2_sell_amended_witness :
    (lookupD sellWitnessState.userBalances ("alice", "ETH") 0 < 2 →
      sellCryptocurrency sellWitnessState "alice" "ETH" 2 9 = .error .insufficientBalance) ∧
    (2 ≤ lookupD sellWitnessState.userBalances ("alice", "ETH") 0 →
      sellWitnessState.contractBalance < 2 * 10 ^ 18 / 10 ^ 18 →
      sellCryptocurrency sellWitnessState "alice" "ETH" 2 9 = .error .insufficientReserve) ∧
    (2 ≤ lookupD sellWitnessState.userBalances ("alice", "ETH") 0 →
      2 * 10 ^ 18 / 10 ^ 18 ≤ sellWitnessState.contractBalance →
      ∃ st', sellCryptocurrency sellWitnessState "alice" "ETH" 2 9 =
          .ok (st', 2 * 10 ^ 18 / 10 ^ 18) ∧
        st'.transactionCount = 0 + 1 ∧
        getTransaction st' (0 + 1) = ⟨0 + 1, "alice", "ETH", 2, 10 ^ 18, "sell", 9, true⟩ ∧
        getUserBalance st' "alice" "ETH" = getUserBalance sellWitnessState "alice" "ETH" - 2 ∧
        st'.contractBalance = sellWitnessState.contractBalance - 2 * 10 ^ 18 / 10 ^ 18) :=
  C2_sell_amended sellWitnessState "alice" "ETH" 2 9 (by decide) (by decide) (by decide) (by decide)

/-! ## C8: contract read operations -/

/-- C8 counterexample: the price read is not total — in the freshly deployed
contract, `getCryptoPrice("XYZ")` reverts with the `cryptoExists` modifier
(NotRegistered) instead of returning a zero result for the unknown key. -/
theorem C8_counterexample :
    ((deployContract "deployer").map fun st => getCryptoPrice st "XYZ")
      = .ok (.error .notRegistered) := by decide

/-- C8 (amended): the reads balance, transactions-by-account, transaction-by-id
and asset list are pure functions of the state (hence never mutate it) and
return the zero value, the empty list, the all-zero record and the stored list
respectively for unknown keys; the price read, by contrast, carries the
`cryptoExists` modifier and fails NotRegistered for an unregistered symbol,
returning the stored price only for registered ones (also without mutating
state). -/
theorem C8_reads_amended :
    (∀ (st : ContractState) (user symbol : String),
      lookupA st.userBalances (user, symbol) = none → getUserBalance st user symbol = 0) ∧
    (∀ (st : ContractState) (user : String),
      lookupA st.userTransactions user = none → getUserTransactions st user = []) ∧
    (∀ (st : ContractState) (txId : Nat),
      lookupA st.transactions txId = none → getTransaction st txId = chainTxDefault) ∧
    (∀ (st : ContractState) (symbol : String),
      (lookupD st.cryptocurrencies symbol cryptoDefault).isActive = false →
      getCryptoPrice st symbol = .error .notRegistered) ∧
    (∀ (st : ContractState) (symbol : String),
      (lookupD st.cryptocurrencies symbol cryptoDefault).isActive = true →
      getCryptoPrice st symbol = .ok (lookupD st.cryptocurrencies symbol cryptoDefault).price) := by
  refine ⟨?_, ?_, ?_, ?_, ?_⟩
  · intro st user symbol h
    simp [getUserBalance, lookupD, h]
  · intro st user h
    simp [getUserTransactions, lookupD, h]
  · intro st txId h
    simp [getTransaction, lookupD, h]
  · intro st symbol h
    simp [getCryptoPrice, h]
  · intro st symbol h
    simp [getCryptoPrice, h]

/-- C8 witness: in the one-asset state, every read of an unknown key returns
its zero/empty default, the price read of an unknown symbol fails, and the
price read of the registered symbol returns its price. -/
theorem C8_reads_amended_witness :
    getUserBalance ethOnlyState "bob" "BTC" = 0 ∧
    getUserTransactions ethOnlyState "bob" = [] ∧
    getTransaction ethOnlyState 42 = chainTxDefault ∧
    getCryptoPrice ethOnlyState "XYZ" = .error .notRegistered ∧
    getCryptoPrice ethOnlyState "ETH" = .ok (10 ^ 18) :=
  ⟨C8_reads_amended.1 ethOnlyState "bob" "BTC" (by decide),
   C8_reads_amended.2.1 ethOnlyState "bob" (by decide),
   C8_reads_amended.2.2.1 ethOnlyState 42 (by decide),
   C8_reads_amended.2.2.2.1 ethOnlyState "XYZ" (by decide),
   C8_reads_amended.2.2.2.2 ethOnlyState "ETH" (by decide)⟩

/-! ## C3: effective balance reconciliation -/

def c3ChainQuery : String → Except String ℚ := fun c => if c = "ETH" then .ok 5 else .ok 0

def c3Journal : List JournalEntry := [⟨1, "ETH", 2, 100, "buy", none⟩]

def c3JournalAda : List JournalEntry := [⟨1, "ADA", 2, 100, "buy", none⟩]

/-- C3 counterexample: ETH is an off-chain-only asset, for which the claim says
the journal aggregate (here 2) is always served; yet the V1 balance query
returns the positive on-chain balance 5 for ETH verbatim.  Conversely the V2
(current) balance query never consults the chain at all: for the tracked asset
ADA it serves the journal aggregate 2 whatever the on-chain balance is. -/
theorem C3_counterexample :
    effectiveBalanceV1 c3ChainQuery c3Journal 1 "ETH" = 5 ∧
    toFixed8 (journalBalance c3Journal 1 "ETH") = 2 ∧ (5 : ℚ) ≠ 2 ∧
    (getUserBalancesV2 (fun _ => 10) c3JournalAda 1).1.map Holding.symbol = ["ADA"] ∧
    (getUserBalancesV2 (fun _ => 10) c3JournalAda 1).1.map Holding.balance = [2] := by
  refine ⟨?_, ?_, by norm_num, ?_, ?_⟩
  · norm_num [effectiveBalanceV1, c3ChainQuery, Except.toOption]
  · simp [toFixed8, journalBalance, boughtSum, soldSum, c3Journal]
    norm_num [round_eq]
  · simp [getUserBalancesV2, getSupportedCryptos, supportedPairs, journalBalance,
      boughtSum, soldSum, c3JournalAda, getCryptoName, lookupA, toFixed2]
  · simp [getUserBalancesV2, getSupportedCryptos, supportedPairs, journalBalance,
      boughtSum, soldSum, c3JournalAda, getCryptoName, lookupA, toFixed2]

/-- C3 (amended): the V1 balance query applies the on-chain-preference rule to
every supported symbol, the off-chain-only assets ETH and BTC included: a
positive on-chain balance is returned verbatim; a zero/negative result or a
failed query falls back to the journal-derived aggregate (rounded to 8
decimals).  The V2 (Binance-era) balance query serves the journal-derived
aggregate for every symbol and never consults the chain (the chain is not even
an input of the computation). -/
theorem C3_effectiveBalance_amended :
    (∀ (cq : String → Except String ℚ) (journal : List JournalEntry) (userId : Nat)
        (symbol : String) (q : ℚ), cq symbol = .ok q → 0 < q →
      effectiveBalanceV1 cq journal userId symbol = q) ∧
    (∀ (cq : String → Except String ℚ) (journal : List JournalEntry) (userId : Nat)
        (symbol : String) (q : ℚ), cq symbol = .ok q → q ≤ 0 →
      effectiveBalanceV1 cq journal userId symbol =
        toFixed8 (journalBalance journal userId symbol)) ∧
    (∀ (cq : String → Except String ℚ) (journal : List JournalEntry) (userId : Nat)
        (symbol : String) (e : String), cq symbol = .error e →
      effectiveBalanceV1 cq journal userId symbol =
        toFixed8 (journalBalance journal userId symbol)) ∧
    (∀ (prices : String → ℚ) (journal : List JournalEntry) (userId : Nat),
      ∀ h ∈ (getUserBalancesV2 prices journal userId).1,
        h.balance = journalBalance journal userId h.symbol) := by
  refine ⟨?_, ?_, ?_, ?_⟩
  · intro cq journal userId symbol q hq hpos
    simp [effectiveBalanceV1, hq, Except.toOption, hpos]
  · intro cq journal userId symbol q hq hle
    simp [effectiveBalanceV1, hq, Except.toOption, not_lt.mpr hle]
  · intro cq journal userId symbol e he
    simp [effectiveBalanceV1, he, Except.toOption]
  · intro prices journal userId h hmem
    simp only [getUserBalancesV2, List.mem_map, List.mem_filterMap] at hmem
    obtain ⟨h0, ⟨c, hc, hsome⟩, rfl⟩ := hmem
    by_cases hbal : journalBalance journal userId c > 0
    · simp only [hbal, if_pos] at hsome
      cases hsome
      simp
    · simp [hbal] at hsome

/-- C3 witness: for a symbol with failed on-chain query the V1 balance falls
back to the journal aggregate, and the V2 holdings all carry journal-derived
balances. -/
theorem C3_effectiveBalance_amended_witness :
    effectiveBalanceV1 (fun _ => .error "connection refused") c3Journal 1 "ETH" =
      toFixed8 (journalBalance c3Journal 1 "ETH") ∧
    (∀ h ∈ (getUserBalancesV2 (fun _ => 10) c3JournalAda 1).1,
      h.balance = journalBalance c3JournalAda 1 h.symbol) :=
  ⟨C3_effectiveBalance_amended.2.2.1 (fun _ => .error "connection refused") c3Journal 1 "ETH"
      "connection refused" rfl,
   C3_effectiveBalance_amended.2.2.2 (fun _ => 10) c3JournalAda 1⟩

/-! ## C4: off-chain-only symbols skip the contract -/

/-- C4 counterexample: the off-chain-only guard compares the raw request
string, while validation uppercases; the case variant input "eth" passes
validation (it designates the asset ETH, as the uppercased journal symbol
shows) yet triggers a ledger-contract call for "ETH" in both order
directions. -/
theorem C4_counterexample :
    isSupported "eth" = true ∧ jsUpper "eth" = "ETH" ∧
    (executeBuy (fun _ => ⟨true, some "0xabc", none⟩) (fun _ => .ok 100) 0 [] [] 1
      "eth" 1 1).2.2 = ["ETH"] ∧
    (executeSell (fun _ => ⟨true, some "0xabc", none⟩) (fun _ => .ok 100) 0 []
      [⟨1, "ETH", 2, 100, "buy", none⟩] 1 "eth" 1).2.2 = ["ETH"] := by
  have he : jsUpper "eth" = "ETH" := by decide
  have hs : isSupported "eth" = true := by decide
  refine ⟨hs, he, ?_, ?_⟩
  · simp [executeBuy, he, hs]
    try norm_num
  · simp [executeSell, he, hs, journalBalance, boughtSum, soldSum]
    try norm_num

/-- C4 (amended): the orchestrator skips the ledger contract exactly when the
raw symbol string equals "ETH" or "BTC": for those two strings no order, buy or
sell, valid or not, ever produces a contract call, and a valid order goes
straight to a single journal write with a null chain reference; for any other
supported symbol string (case variants of ETH/BTC included) a valid order
submits exactly one contract call for the uppercased symbol. -/
theorem C4_offchain_skip_amended :
    (∀ (chainBuy : String → ChainCallResult) (upstream : String → Except String ℚ)
        (now : Nat) (cache : PriceCache) (journal : List JournalEntry) (userId : Nat)
        (amount ethValue : ℚ),
      (executeBuy chainBuy upstream now cache journal userId "ETH" amount ethValue).2.2 = [] ∧
      (executeBuy chainBuy upstream now cache journal userId "BTC" amount ethValue).2.2 = []) ∧
    (∀ (chainSell : String → ChainCallResult) (upstream : String → Except String ℚ)
        (now : Nat) (cache : PriceCache) (journal : List JournalEntry) (userId : Nat)
        (amount : ℚ),
      (executeSell chainSell upstream now cache journal userId "ETH" amount).2.2 = [] ∧
      (executeSell chainSell upstream now cache journal userId "BTC" amount).2.2 = []) ∧
    (∀ (chainBuy : String → ChainCallResult) (upstream : String → Except String ℚ)
        (now : Nat) (cache : PriceCache) (journal : List JournalEntry) (userId : Nat)
        (amount ethValue : ℚ), 0 < amount → 0 < ethValue →
      executeBuy chainBuy upstream now cache journal userId "ETH" amount ethValue =
        (.accepted none, journal ++ [⟨userId, "ETH", amount,
          (getPrice upstream now cache "ETH").1.toOption.getD 0, "buy", none⟩], [])) ∧
    (∀ (chainSell : String → ChainCallResult) (upstream : String → Except String ℚ)
        (now : Nat) (cache : PriceCache) (journal : List JournalEntry) (userId : Nat)
        (amount : ℚ), 0 < amount → amount ≤ journalBalance journal userId "ETH" →
      executeSell chainSell upstream now cache journal userId "ETH" amount =
        (.accepted none, journal ++ [⟨userId, "ETH", amount,
          (getPrice upstream now cache "ETH").1.toOption.getD 0, "sell", none⟩], [])) ∧
    (∀ (chainBuy : String → ChainCallResult) (upstream : String → Except String ℚ)
        (now : Nat) (cache : PriceCache) (journal : List JournalEntry) (userId : Nat)
        (s : String) (amount ethValue : ℚ), 0 < amount → 0 < ethValue → s ≠ "" →
      s ≠ "ETH" → s ≠ "BTC" → isSupported s = true →
      (executeBuy chainBuy upstream now cache journal userId s amount ethValue).2.2
        = [jsUpper s]) := by
  have hE : jsUpper "ETH" = "ETH" := by decide
  have hB : jsUpper "BTC" = "BTC" := by decide
  refine ⟨?_, ?_, ?_, ?_, ?_⟩
  · intro chainBuy upstream now cache journal userId amount ethValue
    constructor <;>
    · unfold executeBuy
      dsimp only
      split
      · rfl
      split
      · rfl
      split
      · rfl
      simp
  · intro chainSell upstream now cache journal userId amount
    constructor <;>
    · unfold executeSell
      dsimp only
      split
      · rfl
      split
      · rfl
      split
      · rfl
      simp
  · intro chainBuy upstream now cache journal userId amount ethValue hamt hval
    have h1 : amount ≠ 0 := ne_of_gt hamt
    have h2 : ethValue ≠ 0 := ne_of_gt hval
    have h3 : ¬ amount ≤ 0 := not_le.mpr hamt
    have h4 : ¬ ethValue ≤ 0 := not_le.mpr hval
    simp [executeBuy, h1, h2, h3, h4, hE, isSupported]
    decide
  · intro chainSell upstream now cache journal userId amount hamt hbal
    have h1 : amount ≠ 0 := ne_of_gt hamt
    have h3 : ¬ amount ≤ 0 := not_le.mpr hamt
    have h5 : ¬ journalBalance journal userId "ETH" < amount := not_lt.mpr hbal
    simp [executeSell, h1, h3, hE, h5, isSupported]
    decide
  · intro chainBuy upstream now cache journal userId s amount ethValue hamt hval hs hne1 hne2 hsup
    have h1 : amount ≠ 0 := ne_of_gt hamt
    have h2 : ethValue ≠ 0 := ne_of_gt hval
    have h3 : ¬ amount ≤ 0 := not_le.mpr hamt
    have h4 : ¬ ethValue ≤ 0 := not_le.mpr hval
    unfold executeBuy
    simp only [hs, h1, h2, h3, h4, hne1, hne2, hsup, or_self, or_false, if_false,
      not_true_eq_false, ne_eq, not_false_eq_true, and_self, if_true, Bool.true_eq_false]
    split <;> rfl

/-- C4 witness: a valid buy and a valid sell of the off-chain-only symbol ETH
write one journal entry each, with no contract call and a null reference, and
a valid buy of the tracked symbol ADA produces the contract call for "ADA". -/
theorem C4_offchain_skip_amended_witness :
    executeBuy (fun _ => ⟨true, some "0xabc", none⟩) (fun _ => .ok 100) 0 [] [] 7 "ETH" 2 1 =
      (.accepted none, [] ++ [⟨7, "ETH", 2,
        (getPrice (fun _ => .ok 100) 0 [] "ETH").1.toOption.getD 0, "buy", none⟩], []) ∧
    executeSell (fun _ => ⟨true, some "0xabc", none⟩) (fun _ => .ok 100) 0 []
        [⟨7, "ETH", 2, 100, "buy", none⟩] 7 "ETH" 1 =
      (.accepted none, [⟨7, "ETH", 2, 100, "buy", none⟩] ++ [⟨7, "ETH", 1,
        (getPrice (fun _ => .ok 100) 0 [] "ETH").1.toOption.getD 0, "sell", none⟩], []) ∧
    (executeBuy (fun _ => ⟨true, some "0xabc", none⟩) (fun _ => .ok 100) 0 [] [] 7
      "ADA" 2 1).2.2 = [jsUpper "ADA"] :=
  ⟨(C4_offchain_skip_amended.2.2.1 _ _ 0 [] [] 7 2 1 (by norm_num) (by norm_num)),
   (C4_offchain_skip_amended.2.2.2.1 _ _ 0 [] [⟨7, "ETH", 2, 100, "buy", none⟩] 7 1
      (by norm_num) (by simp [journalBalance, boughtSum, soldSum])),
   (C4_offchain_skip_amended.2.2.2.2 _ _ 0 [] [] 7 "ADA" 2 1 (by norm_num) (by norm_num)
      (by decide) (by decide) (by decide) (by decide))⟩

/-! ## C5: chain outcome gates the journal write (tracked assets) -/

/-- C5: for a valid tracked-asset order (supported symbol, not the raw strings
"ETH"/"BTC"), a rejected contract call (success = false) surfaces the wrapped
error message — the contract's reason when one is present — and writes no
journal entry, while a successful call writes exactly one journal entry
carrying the chain's transaction hash. -/
theorem C5_orchestrator_consistency :
    (∀ (chainBuy : String → ChainCallResult) (upstream : String → Except String ℚ)
        (now : Nat) (cache : PriceCache) (journal : List JournalEntry) (userId : Nat)
        (s : String) (amount ethValue : ℚ),
      s ≠ "" → 0 < amount → 0 < ethValue → isSupported s = true → s ≠ "ETH" → s ≠ "BTC" →
      ((chainBuy (jsUpper s)).success = false →
        executeBuy chainBuy upstream now cache journal userId s amount ethValue =
          (.badRequest ((chainBuy (jsUpper s)).errMsg.getD
              "Transaction has been reverted by the EVM"), journal, [jsUpper s])) ∧
      (∀ h : String, (chainBuy (jsUpper s)).success = true →
        (chainBuy (jsUpper s)).transactionHash = some h → h ≠ "" →
        executeBuy chainBuy upstream now cache journal userId s amount ethValue =
          (.accepted (some h), journal ++ [⟨userId, jsUpper s, amount,
            (getPrice upstream now cache (jsUpper s)).1.toOption.getD 0, "buy", some h⟩],
            [jsUpper s]))) ∧
    (∀ (chainSell : String → ChainCallResult) (upstream : String → Except String ℚ)
        (now : Nat) (cache : PriceCache) (journal : List JournalEntry) (userId : Nat)
        (s : String) (amount : ℚ),
      s ≠ "" → 0 < amount → isSupported s = true → s ≠ "ETH" → s ≠ "BTC" →
      amount ≤ journalBalance journal userId (jsUpper s) →
      ((chainSell (jsUpper s)).success = false →
        executeSell chainSell upstream now cache journal userId s amount =
          (.badRequest ((chainSell (jsUpper s)).errMsg.getD "EVM revert"),
            journal, [jsUpper s])) ∧
      (∀ h : String, (chainSell (jsUpper s)).success = true →
        (chainSell (jsUpper s)).transactionHash = some h → h ≠ "" →
        executeSell chainSell upstream now cache journal userId s amount =
          (.accepted (some h), journal ++ [⟨userId, jsUpper s, amount,
            (getPrice upstream now cache (jsUpper s)).1.toOption.getD 0, "sell", some h⟩],
            [jsUpper s]))) := by
  constructor
  · intro chainBuy upstream now cache journal userId s amount ethValue
      hs hamt hval hsup hne1 hne2
    have h1 : amount ≠ 0 := ne_of_gt hamt
    have h2 : ethValue ≠ 0 := ne_of_gt hval
    have h3 : ¬ amount ≤ 0 := not_le.mpr hamt
    have h4 : ¬ ethValue ≤ 0 := not_le.mpr hval
    constructor
    · intro hfail
      simp [executeBuy, hs, h1, h2, h3, h4, hsup, hne1, hne2, hfail]
    · intro h hsucc hhash hne
      simp [executeBuy, hs, h1, h2, h3, h4, hsup, hne1, hne2, hsucc, hhash,
        jsTruthyHash, hne]
  · intro chainSell upstream now cache journal userId s amount
      hs hamt hsup hne1 hne2 hbal
    have h1 : amount ≠ 0 := ne_of_gt hamt
    have h3 : ¬ amount ≤ 0 := not_le.mpr hamt
    have h5 : ¬ journalBalance journal userId (jsUpper s) < amount := not_lt.mpr hbal
    constructor
    · intro hfail
      simp [executeSell, hs, h1, h3, hsup, hne1, hne2, h5, hfail]
    · intro h hsucc hhash hne
      simp [executeSell, hs, h1, h3, hsup, hne1, hne2, h5, hsucc, hhash,
        jsTruthyHash, hne]

/-- C5 witness: a rejected contract buy of the tracked asset ADA returns the
contract's reason with the journal unchanged; a successful buy and a
successful sell each append exactly one journal entry with the chain's
transaction hash. -/
theorem C5_orchestrator_consistency_witness :
    executeBuy (fun _ => ⟨false, none, some "Insufficient ETH sent"⟩) (fun _ => .ok 100)
        0 [] [] 3 "ADA" 2 1 =
      (.badRequest "Insufficient ETH sent", [], ["ADA"]) ∧
    executeBuy (fun _ => ⟨true, some "0xfeed", none⟩) (fun _ => .ok 100) 0 [] [] 3 "ADA" 2 1 =
      (.accepted (some "0xfeed"), [] ++ [⟨3, "ADA", 2,
        (getPrice (fun _ => .ok 100) 0 [] (jsUpper "ADA")).1.toOption.getD 0, "buy",
        some "0xfeed"⟩], ["ADA"]) ∧
    executeSell (fun _ => ⟨true, some "0xbeef", none⟩) (fun _ => .ok 100) 0 []
        [⟨3, "ADA", 5, 100, "buy", none⟩] 3 "ADA" 2 =
      (.accepted (some "0xbeef"), [⟨3, "ADA", 5, 100, "buy", none⟩] ++ [⟨3, "ADA", 2,
        (getPrice (fun _ => .ok 100) 0 [] (jsUpper "ADA")).1.toOption.getD 0, "sell",
        some "0xbeef"⟩], ["ADA"]) :=
  ⟨(C5_orchestrator_consistency.1 (fun _ => ⟨false, none, some "Insufficient ETH sent"⟩)
      (fun _ => .ok 100) 0 [] [] 3 "ADA" 2 1 (by decide) (by norm_num) (by norm_num)
      (by decide) (by decide) (by decide)).1 rfl,
   (C5_orchestrator_consistency.1 (fun _ => ⟨true, some "0xfeed", none⟩)
      (fun _ => .ok 100) 0 [] [] 3 "ADA" 2 1 (by decide) (by norm_num) (by norm_num)
      (by decide) (by decide) (by decide)).2 "0xfeed" rfl rfl (by decide),
   (C5_orchestrator_consistency.2 (fun _ => ⟨true, some "0xbeef", none⟩)
      (fun _ => .ok 100) 0 [] [⟨3, "ADA", 5, 100, "buy", none⟩] 3 "ADA" 2 (by decide)
      (by norm_num) (by decide) (by decide) (by decide)
      (by have hA : jsUpper "ADA" = "ADA" := by decide
          rw [hA]
          simp [journalBalance, boughtSum, soldSum]
          norm_num)).2 "0xbeef" rfl rfl (by decide)⟩

/-! ## C6: unsupported symbol on the price path -/

theorem lookupA_eq_none_iff {α β : Type} [DecidableEq α] (m : List (α × β)) (k : α) :
    lookupA m k = none ↔ ∀ kv ∈ m, k ≠ kv.1 := by
  induction m with
  | nil => simp [lookupA]
  | cons a rest ih =>
    obtain ⟨k', v⟩ := a
    by_cases hk : k = k' <;> simp [lookupA, hk, ih]

theorem getFallbackPrice_of_unsupported (s : String)
    (h : lookupA supportedPairs (jsUpper s) = none) : getFallbackPrice s = 1 := by
  rw [lookupA_eq_none_iff] at h
  simp [supportedPairs] at h
  obtain ⟨h1, h2, h3, h4, h5, h6, h7, h8⟩ := h
  simp [getFallbackPrice, fallbackPriceTable, lookupA, h1, h2, h3, h4, h5, h6, h7, h8]

/-- C6 counterexample: for the unsupported symbol "DOGE", price lookup does not
fail: the internal unsupported-symbol throw is swallowed by the catch block and
the generic fallback price 1.00000000 is returned (whether the upstream
endpoint is up or down), leaving the cache untouched. -/
theorem C6_counterexample :
    isSupported "DOGE" = false ∧
    getPrice (fun _ => .error "boom") 0 [] "DOGE" = (.ok 1, []) ∧
    getPrice (fun _ => .ok 123) 0 [] "DOGE" = (.ok 1, []) := by
  refine ⟨by decide, ?_, ?_⟩ <;>
  · have h : lookupA supportedPairs (jsUpper "DOGE") = none := by decide
    have hc : lookupA ([] : PriceCache) (jsUpper "DOGE") = none := rfl
    have hf := getFallbackPrice_of_unsupported "DOGE" h
    simp [getPrice, h, hc, hf]

/-- C6 (amended): for a symbol outside the supported table (and not present in
the cache, which the service only ever fills with supported symbols), the
price operation does not fail with UnsupportedAsset: it returns the generic
fallback price 1 and leaves the cache unchanged.  The UnsupportedAsset
rejection observed by API callers is enforced separately, by the controllers'
isSupported check before any price call. -/
theorem C6_unsupported_price_amended :
    ∀ (upstream : String → Except String ℚ) (now : Nat) (cache : PriceCache) (s : String),
      lookupA supportedPairs (jsUpper s) = none → lookupA cache (jsUpper s) = none →
      getPrice upstream now cache s = (.ok 1, cache) := by
  intro upstream now cache s hp hc
  have hf : getFallbackPrice s = 1 := getFallbackPrice_of_unsupported s hp
  simp [getPrice, hp, hc, hf]

/-- C6 witness: a lookup of the unsupported symbol "SHIB" against a cache
holding only "BTC" returns price 1 without failing. -/
theorem C6_unsupported_price_amended_witness :
    getPrice (fun _ => .ok 5) 3 [("BTC", ⟨9, 0⟩)] "SHIB" = (.ok 1, [("BTC", ⟨9, 0⟩)]) :=
  C6_unsupported_price_amended (fun _ => .ok 5) 3 [("BTC", ⟨9, 0⟩)] "SHIB"
    (by decide) (by decide)

/-! ## C7: degradation to cache or static fallback -/

/-- C7: for a supported symbol whose upstream fetch fails, the price operation
never fails the caller: it returns the cached entry when one exists and the
static per-symbol fallback constant otherwise, leaving the cache unchanged;
and after any successful fetch has filled the cache, a subsequent failing
fetch returns exactly that most recently cached price. -/
theorem C7_price_degradation :
    ∀ (u : String → Except String ℚ) (pair s : String) (now : Nat) (cache : PriceCache)
      (msg : String),
      lookupA supportedPairs (jsUpper s) = some pair → u pair = .error msg →
      ((lookupA cache (jsUpper s) = none →
          getPrice u now cache s = (.ok (getFallbackPrice s), cache)) ∧
       (∀ e : CacheEntry, lookupA cache (jsUpper s) = some e →
          getPrice u now cache s = (.ok e.price, cache)) ∧
       (∀ (u0 : String → Except String ℚ) (p : ℚ) (n0 : Nat), u0 pair = .ok p →
          getPrice u now ((getPrice u0 n0 cache s).2) s =
            (.ok (toFixed8 p), (getPrice u0 n0 cache s).2))) := by
  intro u pair s now cache msg hpair herr
  refine ⟨?_, ?_, ?_⟩
  · intro hnone
    simp [getPrice, hpair, herr, hnone]
  · intro e he
    simp [getPrice, hpair, herr, he]
  · intro u0 p n0 hok
    have hInner : getPrice u0 n0 cache s =
        (.ok (toFixed8 p), (jsUpper s, ⟨toFixed8 p, n0⟩) :: cache) := by
      simp [getPrice, hpair, hok]
    rw [hInner]
    unfold getPrice
    rw [hpair]
    simp [herr, lookupA]

/-- C7 witness: with the upstream down, a never-cached BTC lookup returns the
static fallback 43250; after one successful fetch at price 7, the next failing
lookup returns the cached 7 (rounded through toFixed8). -/
theorem C7_price_degradation_witness :
    (lookupA ([] : PriceCache) (jsUpper "BTC") = none →
      getPrice (fun _ => .error "down") 5 [] "BTC" = (.ok (getFallbackPrice "BTC"), [])) ∧
    (∀ e : CacheEntry, lookupA ([] : PriceCache) (jsUpper "BTC") = some e →
      getPrice (fun _ => .error "down") 5 [] "BTC" = (.ok e.price, [])) ∧
    (∀ (u0 : String → Except String ℚ) (p : ℚ) (n0 : Nat), u0 "BTCUSDT" = .ok p →
      getPrice (fun _ => .error "down") 5 ((getPrice u0 n0 [] "BTC").2) "BTC" =
        (.ok (toFixed8 p), (getPrice u0 n0 [] "BTC").2)) :=
  C7_price_degradation (fun _ => .error "down") "BTCUSDT" "BTC" 5 [] "down"
    (by decide) rfl

/-! ## C10: case insensitivity of the oracle surface -/

/-- C10: price lookup, support test, cached-price lookup and 24h stats are
case-insensitive — each returns the same result on s as on uppercase s — and
the cache is keyed by the uppercased symbol only, so a price cached through
any case variant is visible to cached-price lookups through any other
variant. -/
theorem C10_case_insensitive :
    (∀ (u : String → Except String ℚ) (now : Nat) (cache : PriceCache) (s : String),
      getPrice u now cache s = getPrice u now cache (jsUpper s)) ∧
    (∀ s : String, isSupported s = isSupported (jsUpper s)) ∧
    (∀ (cache : PriceCache) (s : String),
      getCachedPrice cache s = getCachedPrice cache (jsUpper s)) ∧
    (∀ (sf : String → Except String RawStats) (u : String → Except String ℚ)
        (now : Nat) (cache : PriceCache) (s : String),
      get24hrStats sf u now cache s = get24hrStats sf u now cache (jsUpper s)) ∧
    (∀ (u : String → Except String ℚ) (now : Nat) (cache : PriceCache) (s t : String)
        (pair : String) (p : ℚ), jsUpper s = jsUpper t →
      lookupA supportedPairs (jsUpper s) = some pair → u pair = .ok p →
      getCachedPrice ((getPrice u now cache s).2) t = some (toFixed8 p)) := by
  refine ⟨?_, ?_, ?_, ?_, ?_⟩
  · intro u now cache s
    simp [getPrice, getFallbackPrice, jsUpper_idem]
  · intro s
    simp [isSupported, jsUpper_idem]
  · intro cache s
    simp [getCachedPrice, jsUpper_idem]
  · intro sf u now cache s
    simp [get24hrStats, stats24Fallback, getPrice, getFallbackPrice, jsUpper_idem]
  · intro u now cache s t pair p hst hpair hok
    have hInner : getPrice u now cache s =
        (.ok (toFixed8 p), (jsUpper s, ⟨toFixed8 p, now⟩) :: cache) := by
      simp [getPrice, hpair, hok]
    rw [hInner]
    simp [getCachedPrice, ← hst, lookupA]

/-- C10 witness: a price fetched through "btc" is visible to the cached-price
lookup through "bTc". -/
theorem C10_case_insensitive_witness :
    getCachedPrice ((getPrice (fun _ => .ok 7) 4 [] "btc").2) "bTc" = some (toFixed8 7) :=
  C10_case_insensitive.2.2.2.2 (fun _ => .ok 7) 4 [] "btc" "bTc" "BTCUSDT" 7
    (by decide) (by decide) rfl

/-! ## C9: portfolio composition and percentage shares -/

theorem toFixed2_sub_abs_le (x : ℚ) : |toFixed2 x - x| ≤ 1 / 200 := by
  unfold toFixed2
  have hstep : ((round (x * 100) : ℤ) : ℚ) / 100 - x = -((x * 100 - round (x * 100)) / 100) := by
    ring
  rw [hstep, abs_neg, abs_div]
  have h1 := abs_sub_round (x * 100)
  have h2 : |(100 : ℚ)| = 100 := by norm_num
  rw [h2]
  linarith

theorem list_sum_sub_abs_le {α : Type} (f g : α → ℚ) (eps : ℚ) (l : List α)
    (h : ∀ a ∈ l, |f a - g a| ≤ eps) :
    |(l.map f).sum - (l.map g).sum| ≤ l.length * eps := by
  induction l with
  | nil => simp
  | cons a l ih =>
    have h1 := h a (List.mem_cons_self a l)
    have h2 := ih fun b hb => h b (List.mem_cons_of_mem a hb)
    simp only [List.map_cons, List.sum_cons, List.length_cons]
    have hsplit : f a + (l.map f).sum - (g a + (l.map g).sum) =
        (f a - g a) + ((l.map f).sum - (l.map g).sum) := by ring
    rw [hsplit]
    calc |(f a - g a) + ((l.map f).sum - (l.map g).sum)|
        ≤ |f a - g a| + |(l.map f).sum - (l.map g).sum| := abs_add _ _
      _ ≤ eps + l.length * eps := add_le_add h1 h2
      _ = (l.length + 1) * eps := by ring
      _ = ((l.length + 1 : Nat) : ℚ) * eps := by push_cast; ring

theorem list_value_sum_mul (l : List Holding) (r : ℚ) :
    (l.map fun h => h.value * r).sum = (l.map Holding.value).sum * r := by
  induction l with
  | nil => simp
  | cons a l ih =>
    simp only [List.map_cons, List.sum_cons, ih]
    ring

theorem pct_key (hs : List Holding) (T : ℚ) (hTpos : 0 < T)
    (hsum : (hs.map Holding.value).sum = T) :
    |((hs.map fun h => toFixed2 (h.value / T * 100)).sum) - 100| ≤ (hs.length : ℚ) / 200 := by
  have hne : T ≠ 0 := ne_of_gt hTpos
  have hg : ((hs.map fun h => h.value / T * 100).sum) = 100 := by
    have hfun : (fun h : Holding => h.value / T * 100) = fun h => h.value * (100 / T) := by
      funext h
      ring
    rw [hfun, list_value_sum_mul, hsum]
    field_simp
  have herr := list_sum_sub_abs_le (fun h => toFixed2 (h.value / T * 100))
    (fun h => h.value / T * 100) (1 / 200) hs (fun a _ => toFixed2_sub_abs_le (a.value / T * 100))
  calc |((hs.map fun h => toFixed2 (h.value / T * 100)).sum) - 100|
      = |((hs.map fun h => toFixed2 (h.value / T * 100)).sum) -
        ((hs.map fun h => h.value / T * 100).sum)| := by rw [hg]
    _ ≤ hs.length * (1 / 200) := herr
    _ = (hs.length : ℚ) / 200 := by ring

theorem portfolio_pct_bound (L : List Holding)
    (hT : 0 < (L.map Holding.value).sum) :
    |(((L.map fun h => { h with percentage :=
        (if (L.map Holding.value).sum > 0 then
          toFixed2 (h.value / (L.map Holding.value).sum * 100) else 0) }).map
      Holding.percentage).sum) - 100| ≤
      (((L.map fun h => { h with percentage :=
        (if (L.map Holding.value).sum > 0 then
          toFixed2 (h.value / (L.map Holding.value).sum * 100) else 0) }).length : ℚ)) / 200 := by
  rw [List.map_map, List.length_map]
  have hcomp : (Holding.percentage ∘ fun h : Holding => { h with percentage :=
      (if (L.map Holding.value).sum > 0 then
        toFixed2 (h.value / (L.map Holding.value).sum * 100) else 0) }) =
      fun h : Holding => toFixed2 (h.value / (L.map Holding.value).sum * 100) := by
    funext h
    simp [hT]
  rw [hcomp]
  exact pct_key L ((L.map Holding.value).sum) hT rfl

/-- C9: the portfolio served by the balances query contains exactly the
supported symbols whose journal-derived balance is positive (zero-balance
symbols are excluded), and whenever the total portfolio value is positive the
per-holding percentages — each holding's rounded share of the total — sum to
100 within the rounding tolerance of half a cent per holding (length/200). -/
theorem C9_portfolio (prices : String → ℚ) (journal : List JournalEntry) (userId : Nat) :
    (∀ s : String, (∃ h ∈ (getUserBalancesV2 prices journal userId).1, h.symbol = s) ↔
      (s ∈ getSupportedCryptos ∧ 0 < journalBalance journal userId s)) ∧
    (0 < (getUserBalancesV2 prices journal userId).2 →
      |((getUserBalancesV2 prices journal userId).1.map Holding.percentage).sum - 100| ≤
        (((getUserBalancesV2 prices journal userId).1.length : ℚ)) / 200) := by
  constructor
  · intro s
    constructor
    · rintro ⟨h, hh, rfl⟩
      simp only [getUserBalancesV2, List.mem_map, List.mem_filterMap] at hh
      obtain ⟨h0, ⟨c, hc, hfc⟩, rfl⟩ := hh
      by_cases hb : journalBalance journal userId c > 0
      · rw [if_pos hb] at hfc
        cases hfc
        exact ⟨hc, hb⟩
      · rw [if_neg hb] at hfc
        simp at hfc
    · rintro ⟨hmem, hbal⟩
      simp only [getUserBalancesV2, List.mem_map, List.mem_filterMap]
      exact ⟨_, ⟨_, ⟨s, hmem, by rw [if_pos hbal]⟩, rfl⟩, rfl⟩
  · intro hT
    simp only [getUserBalancesV2] at hT ⊢
    exact portfolio_pct_bound _ hT

/-- C9 witness: in a journal holding 1 BTC and 2 ETH priced at 30 and 10, the
portfolio lists exactly the positive holdings and the percentage shares sum to
100 within the tolerance. -/
theorem C9_portfolio_witness :
    (∀ s : String,
      (∃ h ∈ (getUserBalancesV2 (fun c => if c = "BTC" then 30 else 10)
          [⟨1, "BTC", 1, 30, "buy", none⟩, ⟨1, "ETH", 2, 10, "buy", none⟩] 1).1,
        h.symbol = s) ↔
      (s ∈ getSupportedCryptos ∧ 0 < journalBalance
        [⟨1, "BTC", 1, 30, "buy", none⟩, ⟨1, "ETH", 2, 10, "buy", none⟩] 1 s)) ∧
    (0 < (getUserBalancesV2 (fun c => if c = "BTC" then 30 else 10)
        [⟨1, "BTC", 1, 30, "buy", none⟩, ⟨1, "ETH", 2, 10, "buy", none⟩] 1).2 →
      |((getUserBalancesV2 (fun c => if c = "BTC" then 30 else 10)
          [⟨1, "BTC", 1, 30, "buy", none⟩, ⟨1, "ETH", 2, 10, "buy", none⟩] 1).1.map
        Holding.percentage).sum - 100| ≤
        (((getUserBalancesV2 (fun c => if c = "BTC" then 30 else 10)
          [⟨1, "BTC", 1, 30, "buy", none⟩, ⟨1, "ETH", 2, 10, "buy", none⟩] 1).1.length : ℚ)) / 200) :=
  C9_portfolio (fun c => if c = "BTC" then 30 else 10)
    [⟨1, "BTC", 1, 30, "buy", none⟩, ⟨1, "ETH", 2, 10, "buy", none⟩] 1
